import Mathlib

/-!
Verification of the SecureCollabNotes codebase (diffieHellman.cc, xor.cc,
finalPacket.h, finalServer.cc, finalClient.cc) against its design
specification.  The C sources are shallowly embedded: machine integers
become Nat (with explicit reduction mod 2 ^ 64 where unsigned 64-bit
overflow could occur), byte buffers become lists of Nat (one entry per
byte), and the stateful server loop becomes explicit state passing over a
ServerState value.
-/

set_option maxRecDepth 10000

namespace SecureNotes

/-! ## Protocol constants (finalPacket.h, diffieHellman.h) -/

/-- MSG_SIZE from finalPacket.h: size in bytes of the fixed message field. -/
def MSG_SIZE : Nat := 256

def OP_DH_PUB : Int := 1
def OP_CREATE_ROOM : Int := 10
def OP_CREATE_ROOM_RESP : Int := 11
def OP_JOIN_ROOM : Int := 12
def OP_JOIN_ROOM_RESP : Int := 13
def OP_POST_NOTE : Int := 20
def OP_LIST_NOTES : Int := 21
def OP_LIST_NOTES_RESP : Int := 22
def OP_DISCONNECT : Int := 30
def OP_ERROR : Int := 40

/-- DH_P from diffieHellman.h: the public modulus 2 ^ 31 - 1. -/
def DH_P : Nat := 2147483647

/-- DH_G from diffieHellman.h: the public generator. -/
def DH_G : Nat := 5

/-! ## Keystream cipher (xor.cc)

`xor_buffer(char *buf, size_t len, unsigned long long key)` treats the
8-byte key as an array of bytes (little-endian memory order on the target)
and xors byte i of the buffer with key byte `i % 8`.  The buffer is a list
of bytes and `len` is its length (every call site in the sources passes
the full buffer length, MSG_SIZE for packets). -/

/-- Byte j of the 64-bit key as laid out in memory (key_bytes[j] in
xor.cc, little-endian order). -/
def keyByte (key : Nat) (j : Nat) : Nat := key / 2 ^ (8 * j) % 256

/-- The loop of xor_buffer, carrying the running index i. -/
def xorBufferFrom (key : Nat) : Nat → List Nat → List Nat
  | _, [] => []
  | i, b :: rest => (b ^^^ keyByte key (i % 8)) :: xorBufferFrom key (i + 1) rest

/-- xor_buffer from xor.cc as a function on byte lists. -/
def xor_buffer (buf : List Nat) (key : Nat) : List Nat :=
  xorBufferFrom key 0 buf

/-! ## Key exchange (diffieHellman.cc) -/

/-- The while loop of modular_pow.  All arithmetic in the C source is on
unsigned long long, so each product is reduced mod 2 ^ 64 before the
reduction mod m, exactly as the machine does. -/
def modPowLoop (base : Nat) (exp : Nat) (m : Nat) (result : Nat) : Nat :=
  if h : exp = 0 then result
  else
    modPowLoop (base * base % 2 ^ 64 % m) (exp / 2) m
      (if exp % 2 = 1 then result * base % 2 ^ 64 % m else result)
termination_by exp
decreasing_by
  exact Nat.div_lt_self (Nat.pos_of_ne_zero h) one_lt_two

/-- modular_pow from diffieHellman.cc: binary square-and-multiply
exponentiation, initial `base = base % mod`, accumulator starting at 1. -/
def modular_pow (base : Nat) (exp : Nat) (m : Nat) : Nat :=
  modPowLoop (base % m) exp m 1

/-- dh_generate_private from diffieHellman.cc, with the two rand() draws
passed in explicitly: priv = (((r1 << 32) | r2) % (DH_P - 1)) + 1. -/
def dh_generate_private (r1 r2 : Nat) : Nat :=
  ((r1 <<< 32) ||| r2) % (DH_P - 1) + 1

/-- dh_compute_public from diffieHellman.cc: (G ^ priv) % P. -/
def dh_compute_public (priv : Nat) : Nat :=
  modular_pow DH_G priv DH_P

/-- dh_compute_shared from diffieHellman.cc: (other_pub ^ priv) % P. -/
def dh_compute_shared (other_pub : Nat) (priv : Nat) : Nat :=
  modular_pow other_pub priv DH_P

/-! ## Packet layout (finalPacket.h)

A Packet is three 32-bit signed integers followed by a 256-byte message
buffer.  Fields are modelled as Int (every value handled fits in 32 bits)
and the message as a list of bytes. -/

structure Packet where
  op : Int
  room_id : Int
  tag : Int
  message : List Nat
deriving DecidableEq

/-- A note record from finalServer.cc: id and a MSG_SIZE byte buffer. -/
structure Note where
  id : Int
  ciphertext : List Nat
deriving DecidableEq

/-- A room record from finalServer.cc.  The notes and room lists are
singly linked with insertion at the head, so the Lean list head is the
most recently inserted element. -/
structure Room where
  id : Int
  invite_code : Int
  room_key : Nat
  notes : List Note
  note_count : Nat
deriving DecidableEq

/-- Per-connection state (ClientContext in finalServer.cc). -/
structure ClientContext where
  shared_key : Nat
  dh_completed : Bool
  current_room_id : Int
deriving DecidableEq

/-- The server-global mutable state: the room linked list and the room id
counter (room_list_head and next_room_id in finalServer.cc). -/
structure ServerState where
  room_list : List Room
  next_room_id : Int
deriving DecidableEq

/-- The state at server start: no rooms, next_room_id = 1. -/
def initialServerState : ServerState := ⟨[], 1⟩

/-- A zeroed MSG_SIZE message buffer (memset of the packet). -/
def zeroMsg : List Nat := List.replicate MSG_SIZE 0

/-- A C string written by snprintf/sprintf into a zeroed MSG_SIZE buffer:
the byte values of the characters followed by zero padding. -/
def msgOfString (s : String) : List Nat :=
  (s.data.map Char.toNat ++ zeroMsg).take MSG_SIZE

/-! ## Server helper functions (finalServer.cc) -/

/-- send_packet_enc: copy the packet, xor-encrypt only the message field
with the session key, and put the copy on the wire.  The returned packet
is the wire image; the caller packet is untouched (the C code encrypts a
memcpy-ed temporary). -/
def send_packet_enc (p : Packet) (key : Nat) : Packet :=
  { p with message := xor_buffer p.message key }

/-- create_room, with the three rand() draws passed explicitly (one for
the invite code, two for the 64-bit room key).  Allocates the next room
id, picks invite_code = rand % 9000 + 1000 with no collision check, and
pushes the room at the head of the room list. -/
def create_room (st : ServerState) (rnd_code rnd_k1 rnd_k2 : Nat) :
    Room × ServerState :=
  let r : Room :=
    { id := st.next_room_id
      invite_code := ((rnd_code % 9000 + 1000 : Nat) : Int)
      room_key := (rnd_k1 <<< 32) ||| rnd_k2
      notes := []
      note_count := 0 }
  (r, { room_list := r :: st.room_list, next_room_id := st.next_room_id + 1 })

/-- find_room_by_id: first room in the list with the given id. -/
def find_room_by_id : List Room → Int → Option Room
  | [], _ => none
  | r :: rest, i => if r.id = i then some r else find_room_by_id rest i

/-- find_room_by_invite: first room in the list with the given code. -/
def find_room_by_invite : List Room → Int → Option Room
  | [], _ => none
  | r :: rest, c => if r.invite_code = c then some r else find_room_by_invite rest c

/-- add_note: n->id = ++(r->note_count); the MSG_SIZE content buffer is
copied into the note and the note is pushed at the head of the list. -/
def add_note (r : Room) (content : List Nat) : Room :=
  let n : Note := { id := ((r.note_count + 1 : Nat) : Int), ciphertext := content }
  { r with notes := n :: r.notes, note_count := r.note_count + 1 }

/-- In-place mutation through the Room pointer returned by
find_room_by_id, rendered functionally: rewrite the first room with the
given id. -/
def update_room_by_id : List Room → Int → (Room → Room) → List Room
  | [], _, _ => []
  | r :: rest, i, f =>
      if r.id = i then f r :: rest else r :: update_room_by_id rest i f

/-! ## Client helper functions (finalClient.cc) -/

/-- sendEncrypted: copy the packet, xor only the message field with the
shared key, send the copy. -/
def sendEncrypted (p : Packet) (sharedKey : Nat) : Packet :=
  { p with message := xor_buffer p.message sharedKey }

/-- recvEncrypted on a successfully received packet: xor only the message
field with the shared key. -/
def recvEncrypted (p : Packet) (sharedKey : Nat) : Packet :=
  { p with message := xor_buffer p.message sharedKey }

/-! ## The main dispatch (finalServer.cc, main) -/

/-- The digit-consuming loop of strtoull (base 10), clamping at
ULLONG_MAX as strtoull does on overflow. -/
def strtoullDigits : List Nat → Nat → Nat
  | [], acc => acc
  | b :: rest, acc =>
      if 48 ≤ b ∧ b ≤ 57 then
        strtoullDigits rest (min (acc * 10 + (b - 48)) (2 ^ 64 - 1))
      else acc

/-- strtoull(msg, NULL, 10) on the message buffer: skip leading
whitespace, accept an optional sign (unsigned negation wraps mod 2^64),
then read decimal digits up to the first non-digit (the NUL padding byte
stops the scan). -/
def strtoullDec (l : List Nat) : Nat :=
  let l1 := l.dropWhile (fun b => b == 32 || (decide (9 ≤ b) && decide (b ≤ 13)))
  match l1 with
  | 43 :: rest => strtoullDigits rest 0
  | 45 :: rest => (2 ^ 64 - strtoullDigits rest 0 % 2 ^ 64) % 2 ^ 64
  | _ => strtoullDigits l1 0

/-- The encrypted-command dispatch of finalServer.cc main (the branch
taken when ctx->dh_completed holds): decrypt the message field with the
session key, then interpret the opcode.  Returns the new global state,
the new per-connection context, and the packets written to this
connection's socket, in order.  The three rand() draws that a
CREATE_ROOM would consume are passed explicitly. -/
def handle_encrypted_command (st : ServerState) (ctx : ClientContext)
    (wire : Packet) (rnd_code rnd_k1 rnd_k2 : Nat) :
    ServerState × ClientContext × List Packet :=
  let req : Packet := { wire with message := xor_buffer wire.message ctx.shared_key }
  if req.op = OP_CREATE_ROOM then
    let rs := create_room st rnd_code rnd_k1 rnd_k2
    let ctx' := { ctx with current_room_id := rs.1.id }
    let resp : Packet :=
      { op := OP_CREATE_ROOM_RESP, room_id := rs.1.id, tag := rs.1.invite_code,
        message := msgOfString "Room Created!" }
    (rs.2, ctx', [send_packet_enc resp ctx.shared_key])
  else if req.op = OP_JOIN_ROOM then
    match find_room_by_invite st.room_list req.tag with
    | some r =>
        let ctx' := { ctx with current_room_id := r.id }
        let resp : Packet :=
          { op := OP_JOIN_ROOM_RESP, room_id := r.id, tag := 0,
            message := msgOfString ("Joined Room " ++ toString r.id) }
        (st, ctx', [send_packet_enc resp ctx.shared_key])
    | none =>
        let resp : Packet :=
          { op := OP_ERROR, room_id := 0, tag := 0,
            message := msgOfString "Invalid Invite Code" }
        (st, ctx, [send_packet_enc resp ctx.shared_key])
  else if req.op = OP_POST_NOTE then
    if ctx.current_room_id ≠ -1 then
      match find_room_by_id st.room_list ctx.current_room_id with
      | some _ =>
          let rooms' := update_room_by_id st.room_list ctx.current_room_id
            (fun r => add_note r req.message)
          ({ st with room_list := rooms' }, ctx, [])
      | none => (st, ctx, [])
    else (st, ctx, [])
  else if req.op = OP_LIST_NOTES then
    if ctx.current_room_id ≠ -1 then
      let notePackets :=
        match find_room_by_id st.room_list ctx.current_room_id with
        | some r =>
            r.notes.map (fun n =>
              send_packet_enc
                { op := OP_LIST_NOTES_RESP, room_id := 0, tag := n.id,
                  message := n.ciphertext } ctx.shared_key)
        | none => []
      let endP : Packet :=
        { op := OP_LIST_NOTES_RESP, room_id := 0, tag := 0, message := zeroMsg }
      (st, ctx, notePackets ++ [send_packet_enc endP ctx.shared_key])
    else (st, ctx, [])
  else (st, ctx, [])

/-- Result of the blocking recv on a ready client socket. -/
inductive RecvResult where
  | disconnected
  | received (p : Packet)

/-- The per-ready-client branch of the main select loop: a failed or
zero-length read closes the connection (the context is destroyed, no
packet is written); otherwise a plaintext DH_PUB packet runs the
handshake, an encrypted command is dispatched once the handshake is done,
and anything else before the handshake is ignored.  The two rand() draws
of dh_generate_private and the three a CREATE_ROOM may consume are
explicit arguments. -/
def handle_ready_client (st : ServerState) (ctx : ClientContext)
    (ev : RecvResult) (dh_r1 dh_r2 rnd_code rnd_k1 rnd_k2 : Nat) :
    ServerState × Option ClientContext × List Packet :=
  match ev with
  | .disconnected => (st, none, [])
  | .received req =>
      if req.op = OP_DH_PUB then
        let client_pub := strtoullDec req.message
        let my_priv := dh_generate_private dh_r1 dh_r2
        let my_pub := dh_compute_public my_priv
        let ctx' := { ctx with
          shared_key := dh_compute_shared client_pub my_priv
          dh_completed := true }
        let resp : Packet :=
          { op := OP_DH_PUB, room_id := 0, tag := 0,
            message := msgOfString (toString my_pub) }
        (st, some ctx', [resp])
      else if ctx.dh_completed then
        let r := handle_encrypted_command st ctx req rnd_code rnd_k1 rnd_k2
        (r.1, some r.2.1, r.2.2)
      else
        (st, some ctx, [])

/-- n successive create_room calls, one rand triple each; returns the
room ids in call order together with the final state. -/
def create_rooms (st : ServerState) : List (Nat × Nat × Nat) → List Int × ServerState
  | [] => ([], st)
  | (rc, r1, r2) :: rest =>
      let rs := create_room st rc r1 r2
      let rest' := create_rooms rs.2 rest
      (rs.1.id :: rest'.1, rest'.2)

/-- Posting a sequence of note contents into a room, oldest first. -/
def post_notes (r : Room) (cs : List (List Nat)) : Room :=
  cs.foldl add_note r

/-! ## Correctness of the embedded modular exponentiation -/

theorem mod_mod_cancel (a m : Nat) : a % m % m = a % m :=
  Nat.mod_mod_of_dvd a dvd_rfl

theorem mul_pow_mod_cancel (r b k m : Nat) :
    r * (b % m) ^ k % m = r * b ^ k % m := by
  rw [Nat.mul_mod, ← Nat.pow_mod, ← Nat.mul_mod]

theorem modPowLoop_spec (m : Nat) (hm : 0 < m) (hm32 : m ≤ 2 ^ 32) :
    ∀ exp base result, base < m → result < m →
      modPowLoop base exp m result = result * base ^ exp % m := by
  intro exp
  induction exp using Nat.strong_induction_on with
  | _ exp ih =>
    intro base result hb hr
    by_cases h0 : exp = 0
    · subst h0
      rw [modPowLoop]
      simp [Nat.mod_eq_of_lt hr]
    · have hsq : base * base < 2 ^ 64 := by
        calc base * base < m * m := by
              exact Nat.mul_lt_mul_of_lt_of_lt hb hb
          _ ≤ 2 ^ 32 * 2 ^ 32 := Nat.mul_le_mul hm32 hm32
          _ = 2 ^ 64 := by norm_num
      have hrb : result * base < 2 ^ 64 := by
        calc result * base < m * m := by
              exact Nat.mul_lt_mul_of_lt_of_lt hr hb
          _ ≤ 2 ^ 32 * 2 ^ 32 := Nat.mul_le_mul hm32 hm32
          _ = 2 ^ 64 := by norm_num
      have hdiv : exp / 2 < exp := Nat.div_lt_self (Nat.pos_of_ne_zero h0) one_lt_two
      rw [modPowLoop]
      simp only [h0, dite_false]
      rw [Nat.mod_eq_of_lt hsq, Nat.mod_eq_of_lt hrb]
      have hb' : base * base % m < m := Nat.mod_lt _ hm
      by_cases hodd : exp % 2 = 1
      · have hr' : result * base % m < m := Nat.mod_lt _ hm
        rw [if_pos hodd, ih (exp / 2) hdiv _ _ hb' hr']
        have hexp : 2 * (exp / 2) + 1 = exp := by omega
        calc result * base % m * (base * base % m) ^ (exp / 2) % m
            = result * base % m * (base * base) ^ (exp / 2) % m :=
              mul_pow_mod_cancel _ _ _ _
          _ = result * base * (base * base) ^ (exp / 2) % m :=
              Nat.mod_mul_mod
          _ = result * base ^ exp % m := by
              rw [← pow_two, ← pow_mul, mul_assoc, ← pow_succ', hexp]
      · rw [if_neg hodd, ih (exp / 2) hdiv _ _ hb' hr]
        have hexp : 2 * (exp / 2) = exp := by omega
        calc result * (base * base % m) ^ (exp / 2) % m
            = result * (base * base) ^ (exp / 2) % m :=
              mul_pow_mod_cancel _ _ _ _
          _ = result * base ^ exp % m := by
              rw [← pow_two, ← pow_mul, hexp]

theorem modular_pow_spec (base exp m : Nat) (hm : 1 < m) (hm32 : m ≤ 2 ^ 32) :
    modular_pow base exp m = base ^ exp % m := by
  have h0 : 0 < m := Nat.lt_of_lt_of_le Nat.one_pos (Nat.le_of_lt hm)
  rw [modular_pow, modPowLoop_spec m h0 hm32 exp (base % m) 1
    (Nat.mod_lt _ h0) hm, one_mul, Nat.pow_mod, mod_mod_cancel, ← Nat.pow_mod]

theorem dh_P_gt_one : 1 < DH_P := by norm_num [DH_P]

theorem dh_P_le : DH_P ≤ 2 ^ 32 := by norm_num [DH_P]

theorem dh_compute_shared_pow (x p : Nat) :
    dh_compute_shared x p = x ^ p % DH_P :=
  modular_pow_spec x p DH_P dh_P_gt_one dh_P_le

theorem dh_compute_public_pow (p : Nat) :
    dh_compute_public p = DH_G ^ p % DH_P :=
  modular_pow_spec DH_G p DH_P dh_P_gt_one dh_P_le

/-- C1: key agreement commutativity.  For private keys a, b in [1, P-1]
(P = 2147483647, G = 5), computing the shared secret from the peer public
key commutes: dh_compute_shared(dh_compute_public(b), a) equals
dh_compute_shared(dh_compute_public(a), b), both sides running the same
square-and-multiply modular exponentiation of diffieHellman.cc. -/
theorem claim_C1_key_agreement_commutativity (a b : Nat)
    (ha1 : 1 ≤ a) (ha2 : a ≤ DH_P - 1) (hb1 : 1 ≤ b) (hb2 : b ≤ DH_P - 1) :
    dh_compute_shared (dh_compute_public b) a
      = dh_compute_shared (dh_compute_public a) b := by
  rw [dh_compute_shared_pow, dh_compute_shared_pow,
    dh_compute_public_pow, dh_compute_public_pow,
    ← Nat.pow_mod, ← Nat.pow_mod, ← pow_mul, ← pow_mul, Nat.mul_comm]

/-- Witness for C1 at the concrete private keys a = 123, b = 456. -/
theorem claim_C1_witness :
    (1 ≤ 123 ∧ 123 ≤ DH_P - 1) ∧ (1 ≤ 456 ∧ 456 ≤ DH_P - 1) ∧
      dh_compute_shared (dh_compute_public 456) 123
        = dh_compute_shared (dh_compute_public 123) 456 :=
  ⟨⟨by norm_num, by norm_num [DH_P]⟩, ⟨by norm_num, by norm_num [DH_P]⟩,
    claim_C1_key_agreement_commutativity 123 456 (by norm_num)
      (by norm_num [DH_P]) (by norm_num) (by norm_num [DH_P])⟩

/-! ## Involution of the keystream cipher -/

theorem xorBufferFrom_involution (key : Nat) :
    ∀ (i : Nat) (buf : List Nat),
      xorBufferFrom key i (xorBufferFrom key i buf) = buf := by
  intro i buf
  induction buf generalizing i with
  | nil => rfl
  | cons b rest ih =>
    simp only [xorBufferFrom, Nat.xor_cancel_right, ih]

/-- C2: cipher involution.  For every byte buffer and every key, applying
xor_buffer twice with the same key returns the buffer exactly. -/
theorem claim_C2_cipher_involution (buf : List Nat) (key : Nat) :
    xor_buffer (xor_buffer buf key) key = buf :=
  xorBufferFrom_involution key 0 buf

/-! ## Room directory lemmas -/

theorem create_rooms_spec (rands : List (Nat × Nat × Nat)) :
    ∀ (st : ServerState),
      (∀ x ∈ (create_rooms st rands).1, st.next_room_id ≤ x) ∧
      ((create_rooms st rands).1).Pairwise (· < ·) := by
  induction rands with
  | nil =>
    intro st
    refine ⟨?_, ?_⟩
    · intro x hx
      simp [create_rooms] at hx
    · simp [create_rooms]
  | cons t rest ih =>
    intro st
    obtain ⟨rc, r1, r2⟩ := t
    have hnext : (create_room st rc r1 r2).2.next_room_id = st.next_room_id + 1 := rfl
    have hih := ih (create_room st rc r1 r2).2
    rw [hnext] at hih
    have hshape : (create_rooms st ((rc, r1, r2) :: rest)).1
        = st.next_room_id :: (create_rooms (create_room st rc r1 r2).2 rest).1 := rfl
    refine ⟨?_, ?_⟩
    · intro x hx
      rw [hshape] at hx
      rcases List.mem_cons.mp hx with h | h
      · omega
      · have := hih.1 x h
        omega
    · rw [hshape]
      refine List.pairwise_cons.mpr ⟨?_, hih.2⟩
      intro x hx
      have := hih.1 x hx
      omega

/-- C9: room id uniqueness.  For every sequence of create_room calls
starting from the initial server state (each call given its rand draws),
the returned room ids are pairwise strictly increasing in call order, and
therefore pairwise distinct, so an id is never reused. -/
theorem claim_C9_room_id_uniqueness (rands : List (Nat × Nat × Nat)) :
    ((create_rooms initialServerState rands).1).Pairwise (· < ·) ∧
      ((create_rooms initialServerState rands).1).Nodup :=
  ⟨(create_rooms_spec rands initialServerState).2,
    ((create_rooms_spec rands initialServerState).2).imp (fun hx => ne_of_lt hx)⟩

/-- C6 (amended): create_room derives the invite code from a single rand
draw as rand % 9000 + 1000 and installs the room unconditionally: no
collision check against live rooms and no regeneration take place, so
two live rooms may carry the same invite code. -/
theorem claim_C6_invite_code_single_draw (st : ServerState) (rc r1 r2 : Nat) :
    (create_room st rc r1 r2).1.invite_code = ((rc % 9000 + 1000 : Nat) : Int) ∧
      (create_room st rc r1 r2).2.room_list
        = (create_room st rc r1 r2).1 :: st.room_list :=
  ⟨rfl, rfl⟩

/-- Counterexample to C6 as stated: two create_room calls whose rand
draws coincide leave two live rooms with the same invite code 1000, so
live invite codes are not pairwise distinct. -/
theorem claim_C6_counterexample :
    ((create_room (create_room initialServerState 0 0 0).2 0 0 0).2.room_list.map
        Room.invite_code) = [1000, 1000] ∧
      ¬ ((create_room (create_room initialServerState 0 0 0).2 0 0 0).2.room_list.map
        Room.invite_code).Nodup := by
  decide

/-- C10: only the message field is enciphered.  The server send path
(send_packet_enc), the client send path (sendEncrypted) and the client
receive path (recvEncrypted) all transform exactly the 256-byte message
field with the keystream; op, room_id and tag go out exactly as set, and
a send followed by a receive under the same key restores the packet. -/
theorem claim_C10_only_message_field_enciphered (p : Packet) (key : Nat) :
    (send_packet_enc p key).op = p.op ∧
    (send_packet_enc p key).room_id = p.room_id ∧
    (send_packet_enc p key).tag = p.tag ∧
    (send_packet_enc p key).message = xor_buffer p.message key ∧
    (sendEncrypted p key).op = p.op ∧
    (sendEncrypted p key).room_id = p.room_id ∧
    (sendEncrypted p key).tag = p.tag ∧
    (sendEncrypted p key).message = xor_buffer p.message key ∧
    (recvEncrypted p key).op = p.op ∧
    (recvEncrypted p key).room_id = p.room_id ∧
    (recvEncrypted p key).tag = p.tag ∧
    (recvEncrypted p key).message = xor_buffer p.message key ∧
    recvEncrypted (sendEncrypted p key) key = p := by
  refine ⟨rfl, rfl, rfl, rfl, rfl, rfl, rfl, rfl, rfl, rfl, rfl, rfl, ?_⟩
  have h : xor_buffer (xor_buffer p.message key) key = p.message :=
    xorBufferFrom_involution key 0 p.message
  calc recvEncrypted (sendEncrypted p key) key
      = { p with message := xor_buffer (xor_buffer p.message key) key } := rfl
    _ = p := by rw [h]

/-! ## Note ordering -/

theorem post_notes_id (cs : List (List Nat)) :
    ∀ (r : Room), (post_notes r cs).id = r.id := by
  induction cs with
  | nil => intro r; rfl
  | cons c cs ih => intro r; exact ih (add_note r c)

theorem post_notes_ids (cs : List (List Nat)) :
    ∀ (r : Room),
      (post_notes r cs).notes.map Note.id
        = ((List.range' (r.note_count + 1) cs.length).reverse.map
            (fun n : Nat => (n : Int))) ++ r.notes.map Note.id := by
  induction cs with
  | nil => intro r; simp [post_notes]
  | cons c cs ih =>
    intro r
    have hstep : post_notes r (c :: cs) = post_notes (add_note r c) cs := rfl
    rw [hstep, ih (add_note r c)]
    have hc : (add_note r c).note_count = r.note_count + 1 := rfl
    have hn : (add_note r c).notes.map Note.id
        = ((r.note_count + 1 : Nat) : Int) :: r.notes.map Note.id := rfl
    rw [hc, hn]
    conv_rhs => rw [List.length_cons, List.range'_succ, List.reverse_cons,
      List.map_append, List.append_assoc]
    rfl

/-- C3 (amended): note listing order.  For a room into which any sequence
of notes has been posted, the LIST_NOTES stream returns the stored notes
newest first — ids note_count, ..., 2, 1, the reverse of creation
order — followed by the terminator packet with tag = 0; a room with zero
notes yields only the terminator. -/
theorem claim_C3_note_listing_reverse_order (idn : Nat) (code : Int)
    (rkey skey : Nat) (cs : List (List Nat)) (rid tg : Int) (msg : List Nat) :
    ((handle_encrypted_command
        ⟨[post_notes ⟨(idn : Int) + 1, code, rkey, [], 0⟩ cs], (idn : Int) + 2⟩
        ⟨skey, true, (idn : Int) + 1⟩
        ⟨OP_LIST_NOTES, rid, tg, msg⟩ 0 0 0).2.2.map Packet.tag)
      = ((List.range' 1 cs.length).reverse.map (fun n : Nat => (n : Int))) ++ [0] := by
  have hne : ((idn : Int) + 1) ≠ -1 := by omega
  have hid : (post_notes ⟨(idn : Int) + 1, code, rkey, [], 0⟩ cs).id
      = (idn : Int) + 1 := post_notes_id cs _
  have hfind : find_room_by_id
      [post_notes ⟨(idn : Int) + 1, code, rkey, [], 0⟩ cs] ((idn : Int) + 1)
      = some (post_notes ⟨(idn : Int) + 1, code, rkey, [], 0⟩ cs) := by
    simp [find_room_by_id, hid]
  simp only [handle_encrypted_command, OP_LIST_NOTES, OP_CREATE_ROOM,
    OP_JOIN_ROOM, OP_POST_NOTE]
  rw [if_neg (by decide : ¬((21 : Int) = 10)),
    if_neg (by decide : ¬((21 : Int) = 12)),
    if_neg (by decide : ¬((21 : Int) = 20)),
    if_true, if_pos hne]
  simp only [hfind]
  rw [List.map_append, List.map_map]
  have htags : (Packet.tag ∘ fun n : Note =>
      send_packet_enc
        { op := OP_LIST_NOTES_RESP, room_id := 0, tag := n.id,
          message := n.ciphertext } skey) = Note.id := rfl
  rw [htags]
  have hids := post_notes_ids cs ⟨(idn : Int) + 1, code, rkey, [], 0⟩
  simp only [List.map_nil, List.append_nil] at hids
  rw [hids]
  rfl

/-- Counterexample to C3 as stated: after posting two notes to a room,
the LIST_NOTES stream carries tags 2, 1, 0 — newest note first — and not
the claimed creation order 1, 2 followed by the terminator. -/
theorem claim_C3_counterexample :
    ((handle_encrypted_command
        ⟨[post_notes ⟨1, 1000, 0, [], 0⟩ [[97], [98]]], 2⟩ ⟨0, true, 1⟩
        ⟨OP_LIST_NOTES, 0, 0, zeroMsg⟩ 0 0 0).2.2.map Packet.tag)
      = [2, 1, 0] ∧ ([2, 1, 0] : List Int) ≠ [1, 2, 0] := by
  decide

/-! ## Note storage and absence of broadcast -/

/-- C4 (amended): the server decrypts the message field of every
encrypted packet, POST_NOTE included, with the session key before acting
on it, so the byte buffer stored for a new note is the session-decrypted
message (the xor of the wire bytes with the session keystream), not the
message as it arrived on the wire; no output packet is produced. -/
theorem claim_C4_note_stored_session_decrypted (st : ServerState)
    (ctx : ClientContext) (rid tg : Int) (msg : List Nat) (rc r1 r2 : Nat)
    (r : Room) (hroom : ctx.current_room_id ≠ -1)
    (hfind : find_room_by_id st.room_list ctx.current_room_id = some r) :
    handle_encrypted_command st ctx ⟨OP_POST_NOTE, rid, tg, msg⟩ rc r1 r2
      = (⟨update_room_by_id st.room_list ctx.current_room_id
            (fun rm => add_note rm (xor_buffer msg ctx.shared_key)),
          st.next_room_id⟩, ctx, []) := by
  simp only [handle_encrypted_command, OP_POST_NOTE, OP_CREATE_ROOM,
    OP_JOIN_ROOM]
  rw [if_neg (by decide : ¬((20 : Int) = 10)),
    if_neg (by decide : ¬((20 : Int) = 12)),
    if_true, if_pos hroom]
  simp only [hfind]

/-- Witness for C4 (amended) on a one-room state with session key 1. -/
theorem claim_C4_witness :
    ((⟨1, true, 1⟩ : ClientContext).current_room_id ≠ -1) ∧
    find_room_by_id [(⟨1, 1000, 0, [], 0⟩ : Room)] (1 : Int)
      = some ⟨1, 1000, 0, [], 0⟩ ∧
    handle_encrypted_command ⟨[⟨1, 1000, 0, [], 0⟩], 2⟩ ⟨1, true, 1⟩
        ⟨OP_POST_NOTE, 0, 0, zeroMsg⟩ 0 0 0
      = (⟨update_room_by_id [⟨1, 1000, 0, [], 0⟩] 1
            (fun rm => add_note rm (xor_buffer zeroMsg 1)),
          2⟩, ⟨1, true, 1⟩, []) :=
  ⟨by decide, by decide,
    claim_C4_note_stored_session_decrypted ⟨[⟨1, 1000, 0, [], 0⟩], 2⟩
      ⟨1, true, 1⟩ 0 0 zeroMsg 0 0 0 ⟨1, 1000, 0, [], 0⟩ (by decide) (by decide)⟩

/-- Counterexample to C4 as stated: with session key 1 and an all-zero
wire message, the stored note buffer is the decrypted buffer, which
differs from the wire bytes — the server does decrypt before storing. -/
theorem claim_C4_counterexample :
    ((handle_encrypted_command ⟨[⟨1, 1000, 0, [], 0⟩], 2⟩ ⟨1, true, 1⟩
        ⟨OP_POST_NOTE, 0, 0, zeroMsg⟩ 0 0 0).1.room_list.map
          (fun r => r.notes.map Note.ciphertext))
      = [[xor_buffer zeroMsg 1]] ∧
    ((handle_encrypted_command ⟨[⟨1, 1000, 0, [], 0⟩], 2⟩ ⟨1, true, 1⟩
        ⟨OP_POST_NOTE, 0, 0, zeroMsg⟩ 0 0 0).1.room_list.map
          (fun r => r.notes.map Note.ciphertext)) ≠ [[zeroMsg]] := by
  decide

/-- C5 (amended): a POST_NOTE is fire-and-forget on the server: whatever
the session and room situation, the handler writes no packet at all — no
response to the poster and no broadcast to other members (no ROOM_UPDATE
operation exists in finalPacket.h). -/
theorem claim_C5_post_sends_nothing (st : ServerState) (ctx : ClientContext)
    (rid tg : Int) (msg : List Nat) (rc r1 r2 : Nat) :
    (handle_encrypted_command st ctx ⟨OP_POST_NOTE, rid, tg, msg⟩ rc r1 r2).2.2
      = [] := by
  simp only [handle_encrypted_command, OP_POST_NOTE, OP_CREATE_ROOM,
    OP_JOIN_ROOM]
  rw [if_neg (by decide : ¬((20 : Int) = 10)),
    if_neg (by decide : ¬((20 : Int) = 12)),
    if_true]
  by_cases hroom : ctx.current_room_id ≠ -1
  · rw [if_pos hroom]
    cases find_room_by_id st.room_list ctx.current_room_id with
    | none => rfl
    | some r => rfl
  · rw [if_neg hroom]

/-- Counterexample to C5 as stated: a successful post (the room's note
count rises to 1) emits zero packets, so no ROOM_UPDATE with the new note
id and ciphertext reaches any member. -/
theorem claim_C5_counterexample :
    ((handle_encrypted_command ⟨[⟨1, 1000, 0, [], 0⟩], 2⟩ ⟨1, true, 1⟩
        ⟨OP_POST_NOTE, 0, 0, zeroMsg⟩ 0 0 0).2.2 = ([] : List Packet)) ∧
    ((handle_encrypted_command ⟨[⟨1, 1000, 0, [], 0⟩], 2⟩ ⟨1, true, 1⟩
        ⟨OP_POST_NOTE, 0, 0, zeroMsg⟩ 0 0 0).1.room_list.map Room.note_count)
      = [1] := by
  decide

/-! ## Error paths -/

/-- C7 (amended): a JOIN_ROOM whose invite code resolves to no live room
is answered with an ERROR packet whose message reads "Invalid Invite
Code" (not "Invalid Code"), and the session state and room directory are
unchanged by the failed join. -/
theorem claim_C7_invalid_invite_error (st : ServerState) (ctx : ClientContext)
    (rid code : Int) (msg : List Nat) (rc r1 r2 : Nat)
    (hfind : find_room_by_invite st.room_list code = none) :
    handle_encrypted_command st ctx ⟨OP_JOIN_ROOM, rid, code, msg⟩ rc r1 r2
      = (st, ctx, [send_packet_enc ⟨OP_ERROR, 0, 0,
          msgOfString "Invalid Invite Code"⟩ ctx.shared_key]) := by
  simp only [handle_encrypted_command, OP_JOIN_ROOM, OP_CREATE_ROOM]
  rw [if_neg (by decide : ¬((12 : Int) = 10)),
    if_true]
  simp only [hfind]

/-- Witness for C7 (amended): joining with code 1234 on an empty room
directory. -/
theorem claim_C7_witness :
    find_room_by_invite initialServerState.room_list 1234 = none ∧
    handle_encrypted_command initialServerState ⟨7, true, -1⟩
        ⟨OP_JOIN_ROOM, 0, 1234, zeroMsg⟩ 0 0 0
      = (initialServerState, ⟨7, true, -1⟩,
          [send_packet_enc ⟨OP_ERROR, 0, 0,
            msgOfString "Invalid Invite Code"⟩ 7]) :=
  ⟨rfl, claim_C7_invalid_invite_error initialServerState ⟨7, true, -1⟩
    0 1234 zeroMsg 0 0 0 rfl⟩

/-- Counterexample to C7 as stated: the error packet a bad invite code
provokes carries the message "Invalid Invite Code", which is not the
claimed "Invalid Code" (session key 0, so the wire message is the
plaintext). -/
theorem claim_C7_counterexample :
    ((handle_encrypted_command initialServerState ⟨0, true, -1⟩
        ⟨OP_JOIN_ROOM, 0, 1234, zeroMsg⟩ 0 0 0).2.2.map Packet.message)
      = [msgOfString "Invalid Invite Code"] ∧
    msgOfString "Invalid Invite Code" ≠ msgOfString "Invalid Code" := by
  decide

/-- C8 (amended): a packet carrying an opcode outside the handled set
{DH_PUB, CREATE_ROOM, JOIN_ROOM, POST_NOTE, LIST_NOTES} on an
established session falls through every branch of the dispatch: the
server sends no packet at all (no error response), leaves the session and
the directory untouched, and does not close the connection. -/
theorem claim_C8_unknown_opcode_silent (st : ServerState) (ctx : ClientContext)
    (p : Packet) (d1 d2 rc r1 r2 : Nat) (hdh : ctx.dh_completed = true)
    (h1 : p.op ≠ OP_DH_PUB) (h10 : p.op ≠ OP_CREATE_ROOM)
    (h12 : p.op ≠ OP_JOIN_ROOM) (h20 : p.op ≠ OP_POST_NOTE)
    (h21 : p.op ≠ OP_LIST_NOTES) :
    handle_ready_client st ctx (.received p) d1 d2 rc r1 r2
      = (st, some ctx, []) := by
  simp only [handle_ready_client, handle_encrypted_command]
  rw [if_neg h1, if_pos (by rw [hdh]), if_neg h10, if_neg h12, if_neg h20,
    if_neg h21]

/-- Witness for C8 (amended) at opcode 99 on an established session. -/
theorem claim_C8_witness :
    ((⟨0, true, -1⟩ : ClientContext).dh_completed = true) ∧
    ((⟨99, 0, 0, zeroMsg⟩ : Packet).op ≠ OP_DH_PUB) ∧
    ((⟨99, 0, 0, zeroMsg⟩ : Packet).op ≠ OP_CREATE_ROOM) ∧
    ((⟨99, 0, 0, zeroMsg⟩ : Packet).op ≠ OP_JOIN_ROOM) ∧
    ((⟨99, 0, 0, zeroMsg⟩ : Packet).op ≠ OP_POST_NOTE) ∧
    ((⟨99, 0, 0, zeroMsg⟩ : Packet).op ≠ OP_LIST_NOTES) ∧
    handle_ready_client initialServerState ⟨0, true, -1⟩
        (.received ⟨99, 0, 0, zeroMsg⟩) 0 0 0 0 0
      = (initialServerState, some ⟨0, true, -1⟩, []) :=
  ⟨rfl, by decide, by decide, by decide, by decide, by decide,
    claim_C8_unknown_opcode_silent initialServerState ⟨0, true, -1⟩
      ⟨99, 0, 0, zeroMsg⟩ 0 0 0 0 0 rfl (by decide) (by decide) (by decide)
      (by decide) (by decide)⟩

/-- Counterexample to C8 as stated: opcode 99 on an established session
produces an empty output list — in particular no ERROR packet is sent
back (the connection does stay open). -/
theorem claim_C8_counterexample :
    ((handle_ready_client initialServerState ⟨0, true, -1⟩
        (.received ⟨99, 0, 0, zeroMsg⟩) 0 0 0 0 0).2.2 = ([] : List Packet)) ∧
    (¬ ∃ q ∈ (handle_ready_client initialServerState ⟨0, true, -1⟩
        (.received ⟨99, 0, 0, zeroMsg⟩) 0 0 0 0 0).2.2, q.op = OP_ERROR) := by
  decide

end SecureNotes
